import Mathlib

/-!
Verification development for the real-time session engine of a web backend:
a two-player timed chess match subsystem (matchmaking, clock bidding, turn
clocks, draw offers, disconnects) and a multi-player quiz subsystem
(lobbies, questions, answer scoring, win conditions).

The definitions below are a shallow embedding of the handlers in
`src/webhooks/chess.ts` and `src/webhooks/index.ts`.  Transport emissions
are modelled as explicit output lists; `setInterval`/`setTimeout` handles
are modelled as armed-flags, and a timer firing is an explicit event that
acts only when the corresponding flag is armed (faithful because the code
clears the interval exactly when the flag-model disarms it).  Deletion of
a session from the in-memory registry (`activeGames.delete` together with
nulling `socket.data.gameId`) is modelled by a `registered : Bool` field
so that properties about timers surviving deregistration are expressible.
JavaScript numeric values are modelled as `Int`/`Nat`, and `data.time`
(an arbitrary JS number fed to `Math.floor`) as `ℚ`; `NaN` is not
representable in this embedding, so the `isNaN` guard in the bid handler
has no corresponding branch.
-/

/-! ## Chess match subsystem: data model (`src/webhooks/chess.ts`) -/

inductive Color where
  | white
  | black
deriving DecidableEq, Repr

def Color.other : Color → Color
  | .white => .black
  | .black => .white

/-- Player record of the match subsystem (`interface Player`): identity,
display name, pending time bid in seconds, and the liveness of the
underlying socket (`socket.connected`). -/
structure ChessPlayer where
  userId : String
  username : String
  bid : Option Int
  connected : Bool
deriving DecidableEq, Repr

inductive ChessPhase where
  | bidding
  | playing
  | ended
deriving DecidableEq, Repr

/-- Match session state (`interface Game`).  `armedFor` models
`timerInterval` together with the color captured by the interval callback
(`currentPlayerTime`); `biddingArmed` models `biddingTimerInterval`;
`registered` models presence in `activeGames` (and the sockets' `gameId`
fields pointing at this game).  The board position is owned by the
external rule engine and abstracted as a `Nat` handle. -/
structure ChessGame where
  white : ChessPlayer
  black : ChessPlayer
  pos : Nat
  phase : ChessPhase
  whiteTime : Int
  blackTime : Int
  armedFor : Option Color
  biddingArmed : Bool
  biddingTimeLeft : Int
  drawOfferFrom : Option Color
  registered : Bool
deriving DecidableEq, Repr

/-- The external rule engine (chess.js), consumed as pure functions:
side to move, move application (`none` models a throw / falsy result for
an illegal move), and terminal-condition predicates. -/
structure Engine where
  turnOf : Nat → Color
  applyMove : Nat → Nat → Option Nat
  isGameOver : Nat → Bool
  isCheckmate : Nat → Bool

/-- `MIN_BID`: minimum time in seconds. -/
def MIN_BID : Int := 60

/-- JavaScript truthiness of an optional numeric field
(`game.white.bid && game.black.bid`; `!game.white.bid`):
`undefined` and `0` are falsy. -/
def jsTruthy : Option Int → Bool
  | none => false
  | some v => v ≠ 0

/-- Observable outbound events of the match subsystem. -/
inductive ChessOut where
  | error (toC : Color) (msg : String)
  | paired (toC : Color)
  | biddingTimeUpdate (timeLeft : Int)
  | start (toC : Color) (selectedTime : Int)
  | timeUpdate (whiteTime blackTime : Int)
  | update (toC : Color) (pos : Nat)
  | win (toC : Color) (winner : String) (reason : String)
  | draw (toC : Color) (reason : String)
  | drawOffered (toC : Color) (from_ : Color)
  | drawOfferSent (toC : Color)
  | drawDeclined (toC : Color)
  | drawOfferCancelled (toC : Color)
  | opponentDisconnected (toC : Color)
deriving DecidableEq, Repr

def ChessGame.playerOf (g : ChessGame) : Color → ChessPlayer
  | .white => g.white
  | .black => g.black

def ChessGame.bidOf (g : ChessGame) : Color → Option Int
  | .white => g.white.bid
  | .black => g.black.bid

def ChessGame.setBid (g : ChessGame) (c : Color) (b : Int) : ChessGame :=
  match c with
  | .white => { g with white := { g.white with bid := some b } }
  | .black => { g with black := { g.black with bid := some b } }

def ChessGame.setConnected (g : ChessGame) (c : Color) (v : Bool) : ChessGame :=
  match c with
  | .white => { g with white := { g.white with connected := v } }
  | .black => { g with black := { g.black with connected := v } }

def ChessGame.timeOf (g : ChessGame) : Color → Int
  | .white => g.whiteTime
  | .black => g.blackTime

def ChessGame.decTime (g : ChessGame) : Color → ChessGame
  | .white => { g with whiteTime := g.whiteTime - 1 }
  | .black => { g with blackTime := g.blackTime - 1 }

/-- `stopTimer`: clear the turn-clock interval. -/
def stopTimerS (g : ChessGame) : ChessGame := { g with armedFor := none }

/-- `startTimer`: clear any existing interval, then arm an interval that
decrements the side currently to move (`game.chess.turn()`). -/
def startTimerS (E : Engine) (g : ChessGame) : ChessGame :=
  { g with armedFor := some (E.turnOf g.pos) }

/-- `stopBiddingTimer`. -/
def stopBiddingS (g : ChessGame) : ChessGame := { g with biddingArmed := false }

/-- `endGame`: stop the turn timer, mark the phase ended, emit `win`/`draw`
to each still-connected player, and deregister the session
(`activeGames.delete` plus nulling both sockets' `gameId`).  The
best-effort stats update is an external side effect with no state. -/
def endGameS (g : ChessGame) (winnerColor : Option Color) (reason : String) :
    ChessGame × List ChessOut :=
  let g1 := stopTimerS g
  let g2 := { g1 with phase := ChessPhase.ended, registered := false }
  let winner : Option String :=
    winnerColor.map (fun c => (g2.playerOf c).userId)
  let outW : List ChessOut :=
    if g2.white.connected then
      match winner with
      | some w => [ChessOut.win Color.white w reason]
      | none => [ChessOut.draw Color.white reason]
    else []
  let outB : List ChessOut :=
    if g2.black.connected then
      match winner with
      | some w => [ChessOut.win Color.black w reason]
      | none => [ChessOut.draw Color.black reason]
    else []
  (g2, outW ++ outB)

/-- Shared tail of both bidding-resolution paths (the two literal copies in
the source): cancel nothing further, compute
`selectedTime = max(MIN_BID, min(white.bid, black.bid))`, set both clocks,
transition to `playing`, emit `start` to both sides, and arm white's turn
timer (`startTimer` on the initial position, whose side to move is white). -/
def resolveBidsS (E : Engine) (g : ChessGame) : ChessGame × List ChessOut :=
  let selectedTime : Int :=
    max MIN_BID (min ((g.white.bid).getD 0) ((g.black.bid).getD 0))
  let g1 := { g with
    whiteTime := selectedTime
    blackTime := selectedTime
    phase := ChessPhase.playing }
  (startTimerS E g1,
    [ChessOut.start Color.white selectedTime,
     ChessOut.start Color.black selectedTime])

/-- The `bid` handler.  Note the order of operations in the source: the
submitted time is first sanitized with `Math.max(MIN_BID, Math.floor(t))`,
and only then checked against `MIN_BID`, so the `bid < MIN_BID` rejection
is unreachable (only `isNaN`, which `ℚ` cannot represent, could fire it). -/
def bidHandler (E : Engine) (g : ChessGame) (c : Color) (t : ℚ) :
    ChessGame × List ChessOut :=
  if ¬g.registered then (g, [ChessOut.error c "No active game"])
  else if g.phase ≠ ChessPhase.bidding then
    (g, [ChessOut.error c "Bidding phase is over"])
  else
    let bid : Int := max MIN_BID ⌊t⌋
    let g1 := g.setBid c bid
    if jsTruthy g1.white.bid ∧ jsTruthy g1.black.bid then
      let g2 := stopBiddingS g1
      resolveBidsS E g2
    else (g1, [])

/-- One firing of the bidding interval (`startBiddingTimer` callback):
decrement `biddingTimeLeft`, broadcast it, and at zero stop the bidding
timer, default any missing bid to 120 seconds, and run the same
resolution as the explicit-bid path. -/
def biddingTickS (E : Engine) (g : ChessGame) : ChessGame × List ChessOut :=
  if ¬g.biddingArmed then (g, [])
  else
    let g1 := { g with biddingTimeLeft := g.biddingTimeLeft - 1 }
    let outs0 := [ChessOut.biddingTimeUpdate g1.biddingTimeLeft]
    if g1.biddingTimeLeft ≤ 0 then
      let g2 := stopBiddingS g1
      let g3 := if jsTruthy g2.white.bid then g2
        else { g2 with white := { g2.white with bid := some 120 } }
      let g4 := if jsTruthy g3.black.bid then g3
        else { g3 with black := { g3.black with bid := some 120 } }
      let (g5, outs1) := resolveBidsS E g4
      (g5, outs0 ++ outs1)
    else (g1, outs0)

/-- One firing of the turn-clock interval (`startTimer` callback, armed
for color `c`): decrement that color's remaining time, broadcast both
clocks, and at zero clear the interval and end the game with the
non-expiring color as winner, reason `time`. -/
def turnTickS (E : Engine) (g : ChessGame) : ChessGame × List ChessOut :=
  match g.armedFor with
  | none => (g, [])
  | some c =>
    let g1 := g.decTime c
    let outs0 := [ChessOut.timeUpdate g1.whiteTime g1.blackTime]
    if g1.timeOf c ≤ 0 then
      let g2 := stopTimerS g1
      let (g3, outs1) := endGameS g2 (some (E.turnOf g2.pos).other) "time"
      (g3, outs0 ++ outs1)
    else (g1, outs0)

/-- The `move` handler.  The mover's timer is stopped *before* move
validation (the elapsed thinking time is already spent); on an illegal
move the timer is re-armed — `startTimer` on the unchanged position, i.e.
for the same color — and an error goes to the mover only. -/
def moveHandler (E : Engine) (g : ChessGame) (c : Color) (m : Nat) :
    ChessGame × List ChessOut :=
  if ¬g.registered then (g, [ChessOut.error c "No active game"])
  else if g.phase ≠ ChessPhase.playing then
    (g, [ChessOut.error c "Game not in playing phase"])
  else if E.turnOf g.pos ≠ c then (g, [ChessOut.error c "Not your turn"])
  else
    let g1 := stopTimerS g
    match E.applyMove g1.pos m with
    | none => (startTimerS E g1, [ChessOut.error c "Invalid move"])
    | some pos2 =>
      let g2 := { g1 with pos := pos2 }
      let outs0 := [ChessOut.update Color.white pos2,
                    ChessOut.update Color.black pos2]
      let g3 := startTimerS E g2
      if E.isGameOver pos2 then
        let winnerColor : Option Color :=
          if E.isCheckmate pos2 then some c else none
        let reason : String :=
          if E.isCheckmate pos2 then "checkmate" else "draw"
        let (g4, outs1) := endGameS g3 winnerColor reason
        (g4, outs0 ++ outs1)
      else ({ g3 with drawOfferFrom := none }, outs0)

/-- The `resign` handler. -/
def resignHandler (g : ChessGame) (c : Color) : ChessGame × List ChessOut :=
  if ¬g.registered then (g, [ChessOut.error c "No active game"])
  else if g.phase ≠ ChessPhase.playing then
    (g, [ChessOut.error c "Game not in playing phase"])
  else endGameS g (some c.other) "resignation"

/-- The `offer_draw` handler. -/
def offerDrawHandler (g : ChessGame) (c : Color) : ChessGame × List ChessOut :=
  if ¬g.registered then (g, [ChessOut.error c "No active game"])
  else if g.phase ≠ ChessPhase.playing then
    (g, [ChessOut.error c "Game not in playing phase"])
  else if g.drawOfferFrom = some c then
    (g, [ChessOut.error c "You already have a pending draw offer"])
  else
    ({ g with drawOfferFrom := some c },
     [ChessOut.drawOffered c.other c, ChessOut.drawOfferSent c])

/-- The `accept_draw` handler. -/
def acceptDrawHandler (g : ChessGame) (c : Color) : ChessGame × List ChessOut :=
  if ¬g.registered then (g, [ChessOut.error c "No active game"])
  else if g.phase ≠ ChessPhase.playing ∨ g.drawOfferFrom = none then
    (g, [ChessOut.error c "No pending draw offer"])
  else if g.drawOfferFrom = some c then
    (g, [ChessOut.error c "Cannot accept your own draw offer"])
  else endGameS g none "draw_agreed"

/-- The `decline_draw` handler. -/
def declineDrawHandler (g : ChessGame) (c : Color) : ChessGame × List ChessOut :=
  if ¬g.registered then (g, [ChessOut.error c "No active game"])
  else if g.phase ≠ ChessPhase.playing ∨ g.drawOfferFrom = none then
    (g, [ChessOut.error c "No pending draw offer"])
  else if g.drawOfferFrom = some c then
    (g, [ChessOut.error c "Cannot decline your own draw offer"])
  else
    ({ g with drawOfferFrom := none },
     [ChessOut.drawDeclined c.other, ChessOut.drawOfferCancelled c])

/-- The `disconnect` handler for a socket bound to an active game (the
waiting-queue branch does not apply to a paired player).  Marks the
disconnecting side's socket dead, then: during `bidding`, stops the
bidding timer, notifies and re-queues the opponent if still connected,
and deregisters the session; otherwise the opponent wins with reason
`opponent disconnected`.  The third component is the player pushed back
onto `waitingQueue`, if any. -/
def disconnectCore (g : ChessGame) (c : Color) :
    ChessGame × List ChessOut × Option ChessPlayer :=
  let g0 := g.setConnected c false
  if ¬g0.registered then (g0, [], none)
  else if g0.phase = ChessPhase.bidding then
    let g1 := stopBiddingS g0
    let opp := g1.playerOf c.other
    if opp.connected then
      ({ g1 with registered := false },
       [ChessOut.opponentDisconnected c.other], some opp)
    else ({ g1 with registered := false }, [], none)
  else
    let (g1, outs) := endGameS g0 (some c.other) "opponent disconnected"
    (g1, outs, none)

/-- Session state created at pairing time: bidding phase, 10-second
bidding window with the bidding timer armed (`startBiddingTimer` is
called immediately after registration), clocks to be set after bidding. -/
def initialGame (wId bId : String) (startPos : Nat) : ChessGame :=
  { white := { userId := wId, username := wId, bid := none, connected := true }
    black := { userId := bId, username := bId, bid := none, connected := true }
    pos := startPos
    phase := ChessPhase.bidding
    whiteTime := 0
    blackTime := 0
    armedFor := none
    biddingArmed := true
    biddingTimeLeft := 10
    drawOfferFrom := none
    registered := true }

/-- Inbound events of one match session (timer firings included). -/
inductive ChessEvent where
  | bid (c : Color) (t : ℚ)
  | biddingTick
  | turnTick
  | move (c : Color) (m : Nat)
  | resign (c : Color)
  | offerDraw (c : Color)
  | acceptDraw (c : Color)
  | declineDraw (c : Color)
  | disconnect (c : Color)

/-- One step of the session, dropping the queue effect of `disconnect`. -/
def chessStep (E : Engine) (g : ChessGame) : ChessEvent → ChessGame × List ChessOut
  | .bid c t => bidHandler E g c t
  | .biddingTick => biddingTickS E g
  | .turnTick => turnTickS E g
  | .move c m => moveHandler E g c m
  | .resign c => resignHandler g c
  | .offerDraw c => offerDrawHandler g c
  | .acceptDraw c => acceptDrawHandler g c
  | .declineDraw c => declineDrawHandler g c
  | .disconnect c => ((disconnectCore g c).1, (disconnectCore g c).2.1)

def runChess (E : Engine) (g : ChessGame) (es : List ChessEvent) : ChessGame :=
  es.foldl (fun g e => (chessStep E g e).1) g

/-- A concrete sample rule engine used to exercise the handlers on closed
inputs (the real engine is the external chess.js library; every theorem
quantifying over `Engine` holds for it in particular). -/
def sampleEngine : Engine :=
  { turnOf := fun p => if p % 2 = 0 then Color.white else Color.black
    applyMove := fun p m => if m = 0 then none else some (p + 1)
    isGameOver := fun p => p ≥ 100
    isCheckmate := fun p => p ≥ 100 }

/-! ## Quiz subsystem: data model (`src/webhooks/index.ts`) -/

inductive WinCond where
  | time
  | correct_answers
  | score
deriving DecidableEq, Repr

/-- `QuizspireSettings`: thresholds are optional (absent = `undefined`). -/
structure QSettings where
  winCondition : WinCond
  correctAnswersThreshold : Option Nat
  scoreThreshold : Option Nat
  timeLimit : Option Nat
  resetOnIncorrect : Bool
  questionTimeLimit : Nat
  allowLateJoin : Bool
  hostParticipates : Bool
deriving DecidableEq, Repr

/-- `QuizspirePlayer` as produced by `createPlayer`: the socket reference
is abstracted to its id (`sid`). -/
structure QPlayer where
  sid : Nat
  userId : String
  username : String
  score : Nat
  correctAnswers : Nat
  isHost : Bool
  isGuest : Bool
deriving DecidableEq, Repr

inductive LobbyStatus where
  | waiting
  | playing
  | ended
deriving DecidableEq, Repr

/-- `QuizspireLobby` (the code string does not influence the verified
logic and is omitted). -/
structure QLobby where
  host : QPlayer
  players : List QPlayer
  deckId : String
  settings : QSettings
  status : LobbyStatus
deriving DecidableEq, Repr

/-- `QuizspireQuestion`: the prompt and the four option payloads are
opaque content; only the correct-option index enters the verified logic. -/
structure QQuestion where
  correctIndex : Int
deriving DecidableEq, Repr

/-- `QuizspireGame`.  `answersSubmitted` is the insertion-ordered
`Map<userId, selectedIndex>`; `timerArmed` models the question timeout
handle `game.timer`. -/
structure QGame where
  lobby : QLobby
  currentQuestionIndex : Nat
  questions : List QQuestion
  questionStartTime : Nat
  answersSubmitted : List (String × Int)
  timerArmed : Bool
deriving DecidableEq, Repr

/-- Observable outbound events of the quiz subsystem. -/
inductive QOut where
  | error (toUid : String) (msg : String)
  | feedback (toUid : String) (isCorrect : Bool) (pointsGained : Nat)
  | questionResults (idx : Nat)
  | leaderboardUpdate
  | gameEnded (reason : String)
deriving DecidableEq, Repr

/-- `createPlayer(socket, userId, username, isHost, isGuest)`. -/
def createPlayer (sid : Nat) (userId username : String)
    (isHost isGuest : Bool) : QPlayer :=
  { sid := sid, userId := userId, username := username,
    score := 0, correctAnswers := 0, isHost := isHost, isGuest := isGuest }

/-- `create_lobby` handler core (deck-ownership validation and code
generation are external): the host is included in `players` only when
`settings.hostParticipates`. -/
def createLobby (host : QPlayer) (deckId : String) (settings : QSettings) :
    QLobby :=
  { host := host
    players := if settings.hostParticipates then [host] else []
    deckId := deckId
    settings := settings
    status := LobbyStatus.waiting }

/-- `join_lobby` handler core: the phase/late-join check, the 50-player
cap, and the duplicate-identity check; on success the new player
(constructed by `createPlayer`/`createGuestPlayer`, hence not host) is
appended.  The second component is the error message, if any. -/
def joinLobby (l : QLobby) (sid : Nat) (userId username : String)
    (isGuest : Bool) : QLobby × Option String :=
  let canJoinLate := l.settings.allowLateJoin ∧ l.status = LobbyStatus.playing
  if l.status ≠ LobbyStatus.waiting ∧ ¬canJoinLate then
    (l, some "Lobby is not accepting new players")
  else if l.players.length ≥ 50 then (l, some "Lobby is full")
  else if l.players.any (fun p => p.userId = userId) then
    (l, some "Already in this lobby")
  else
    let player := createPlayer sid userId username false isGuest
    ({ l with players := l.players ++ [player] }, none)

/-- `leave_lobby` / quiz `disconnect` core: remove the departing socket's
player; an emptied lobby is deleted (`none`); otherwise, if the departing
socket was the host's, the first remaining player (join order) becomes
host with its `isHost` flag set (the source mutates the shared object, so
both the `host` field and the list entry change). -/
def leaveLobby (l : QLobby) (sid : Nat) : Option QLobby :=
  match l.players.filter (fun p => p.sid ≠ sid) with
  | [] => none
  | h :: t =>
    if l.host.sid = sid then
      let h1 := { h with isHost := true }
      some { l with players := h1 :: t
                    host := h1 }
    else some { l with players := h :: t }

/-- `kick_player` handler core (lobby part; the active-game answer
removal is modelled separately): host-only, target must be a member and
not the host; removal is by identity. -/
def kickPlayer (l : QLobby) (requesterUid targetUid : String) :
    QLobby × Option String :=
  if l.host.userId ≠ requesterUid then (l, some "Only host can kick players")
  else
    match l.players.find? (fun p => p.userId = targetUid) with
    | none => (l, some "Player not found in lobby")
    | some t =>
      if t.isHost then (l, some "Cannot kick the host")
      else
        ({ l with players := l.players.filter (fun p => p.userId ≠ targetUid) },
         none)

/-- Lobby-membership operations of claim C6 (`start_game`, which can
swap settings, is not among them).  A quiz `disconnect` runs the same
logic as `leave_lobby` and is represented by `leave`. -/
inductive LobbyOp where
  | join (sid : Nat) (userId username : String) (isGuest : Bool)
  | leave (sid : Nat)
  | kick (requesterUid targetUid : String)

def applyLobbyOp (l : QLobby) : LobbyOp → Option QLobby
  | .join sid uid uname ig => some (joinLobby l sid uid uname ig).1
  | .leave sid => leaveLobby l sid
  | .kick r t => some (kickPlayer l r t).1

def runLobbyOps (l : QLobby) (ops : List LobbyOp) : Option QLobby :=
  ops.foldl (fun acc op => acc.bind (fun l => applyLobbyOp l op)) (some l)

/-- JS array destructuring `[key]` applied to a string yields its first
character (as a 1-character string); for the empty string it yields
`undefined`, which the loose inequality against a string id also treats
as different, so the empty case is modelled by `""`. -/
def firstCharStr (s : String) : String :=
  match s.data with
  | [] => ""
  | ch :: _ => String.mk [ch]

/-- The answered-player count used by the `submit_answer` completion
check, exactly as written in the source:
`Array.from(game.answersSubmitted.keys()).filter(([key]) => !hostParticipates ? key != host.userId : true).length`
— note that `[key]` destructures each key string, so the comparison is
between the *first character* of an answered id and the full host id. -/
def answeredCountForCheck (g : QGame) : Int :=
  ((g.answersSubmitted.map Prod.fst).filter (fun k =>
    if ¬g.lobby.settings.hostParticipates then
      firstCharStr k ≠ g.lobby.host.userId
    else true)).length

/-- The required count of the completion check:
`game.lobby.players.length - (!hostParticipates ? 1 : 0)`. -/
def requiredCount (g : QGame) : Int :=
  (g.lobby.players.length : Int) -
    (if ¬g.lobby.settings.hostParticipates then 1 else 0)

/-- `showQuestionResults`: broadcasts per-player results and the
leaderboard (display only — no game-state mutation; the 3-second
`nextQuestion` delay is a separately fired event). -/
def showQuestionResults (g : QGame) : QGame × List QOut :=
  (g, [QOut.questionResults g.currentQuestionIndex, QOut.leaderboardUpdate])

/-- The points awarded for a correct answer submitted `timeTakenMs`
milliseconds after the question started:
`100 + Math.floor(Math.max(0, questionTimeLimit - timeTaken / 1000) * 10)`. -/
def pointsFor (questionTimeLimit : Nat) (timeTakenMs : Nat) : Nat :=
  let timeBonus : ℚ :=
    max 0 ((questionTimeLimit : ℚ) - (timeTakenMs : ℚ) / 1000)
  100 + (⌊timeBonus * 10⌋).toNat

/-- The `submit_answer` handler for an active game (`now` is `Date.now()`
in milliseconds).  Mirrors the source order: duplicate-answer check,
index range check, answer recording, per-player stats update, private
feedback, then the completion check that may cancel the question timer
and finalize results.  The stats update mutates the player found by
identity, modelled as a map over the player list (faithful whenever ids
are unique in the lobby, which `join_lobby` enforces). -/
def submitAnswer (g : QGame) (userId : String) (selectedIndex : Int)
    (now : Nat) : QGame × List QOut :=
  if g.answersSubmitted.any (fun kv => kv.1 = userId) then
    (g, [QOut.error userId "Already submitted answer for this question"])
  else if selectedIndex < 0 ∨ selectedIndex > 3 then
    (g, [QOut.error userId "Invalid answer index"])
  else
    let question := g.questions.getD g.currentQuestionIndex ⟨0⟩
    let isCorrect := selectedIndex = question.correctIndex
    let timeTaken := now - g.questionStartTime
    let g1 := { g with
      answersSubmitted := g.answersSubmitted ++ [(userId, selectedIndex)] }
    let pointsGained : Nat :=
      if isCorrect then pointsFor g1.lobby.settings.questionTimeLimit timeTaken
      else 0
    let updatePlayer : QPlayer → QPlayer := fun p =>
      if p.userId = userId then
        if isCorrect then
          { p with correctAnswers := p.correctAnswers + 1,
                   score := p.score + pointsGained }
        else if g1.lobby.settings.resetOnIncorrect then
          { p with correctAnswers := 0 }
        else p
      else p
    let g2 := { g1 with
      lobby := { g1.lobby with players := g1.lobby.players.map updatePlayer } }
    let outs := [QOut.feedback userId isCorrect pointsGained]
    if answeredCountForCheck g2 = requiredCount g2 then
      let g3 := { g2 with timerArmed := false }
      let (g4, outs1) := showQuestionResults g3
      (g4, outs ++ outs1)
    else (g2, outs)

/-- `endGame` of the quiz engine: clear any pending timer, set the lobby
status to `ended`, broadcast `game_ended` with the reason (standings are
display only), and drop the game from `activeGames` (the lobby itself
survives for a restart). -/
def endGameQ (g : QGame) (reason : String) : QGame × List QOut :=
  let g1 := { g with
    timerArmed := false
    lobby := { g.lobby with status := LobbyStatus.ended } }
  (g1, [QOut.gameEnded reason])

/-- `startQuestion`: record the start timestamp, clear the per-question
answers, broadcast the question, and arm the single-shot question timer. -/
def startQuestionQ (g : QGame) (now : Nat) : QGame :=
  { g with questionStartTime := now, answersSubmitted := [], timerArmed := true }

/-- JS `x >= t` where `t` may be `undefined`
(`settings.correctAnswersThreshold!` on an absent field): any comparison
with `undefined` is false. -/
def jsGeOpt (a : Nat) : Option Nat → Bool
  | some t => a ≥ t
  | none => false

inductive NextOutcome where
  | ended (reason : String)
  | nextStarted
deriving DecidableEq, Repr

/-- `nextQuestion`: advance the index; when exhausted end with
`all_questions_completed`; otherwise evaluate the configured win
condition against the players' running totals and either end with the
matching threshold reason or start the next question (`time` is not
polled here). -/
def nextQuestion (g : QGame) (now : Nat) : QGame × NextOutcome :=
  let g1 := { g with currentQuestionIndex := g.currentQuestionIndex + 1 }
  if g1.currentQuestionIndex ≥ g1.questions.length then
    ((endGameQ g1 "all_questions_completed").1,
     NextOutcome.ended "all_questions_completed")
  else
    let settings := g1.lobby.settings
    if settings.winCondition = WinCond.correct_answers then
      let maxCorrect :=
        (g1.lobby.players.map (fun p => p.correctAnswers)).foldr max 0
      if jsGeOpt maxCorrect settings.correctAnswersThreshold then
        ((endGameQ g1 "correct_answers_threshold_reached").1,
         NextOutcome.ended "correct_answers_threshold_reached")
      else (startQuestionQ g1 now, NextOutcome.nextStarted)
    else if settings.winCondition = WinCond.score then
      let maxScore := (g1.lobby.players.map (fun p => p.score)).foldr max 0
      if jsGeOpt maxScore settings.scoreThreshold then
        ((endGameQ g1 "score_threshold_reached").1,
         NextOutcome.ended "score_threshold_reached")
      else (startQuestionQ g1 now, NextOutcome.nextStarted)
    else (startQuestionQ g1 now, NextOutcome.nextStarted)

/-! ## Invariants and concrete demonstration states -/

/-- Claim C8's invariant, strengthened for induction: an armed bidding
timer implies the session is still registered and in the bidding phase;
an armed turn timer implies it is registered and playing.  Since the
phases differ, at most one timer is armed, and a deregistered session
has no armed timer. -/
def ChessTimerInv (g : ChessGame) : Prop :=
  (g.biddingArmed = true → g.phase = ChessPhase.bidding ∧ g.registered = true) ∧
  (g.armedFor.isSome = true → g.phase = ChessPhase.playing ∧ g.registered = true)

instance (g : ChessGame) : Decidable (ChessTimerInv g) := by
  unfold ChessTimerInv
  infer_instance

/-- Claim C6's invariant, strengthened for induction: the host is a
member of the player list, carries the `isHost` flag, and player
identities are pairwise distinct (the duplicate check of `join_lobby`
maintains the last part). -/
def LobbyInv (l : QLobby) : Prop :=
  l.host ∈ l.players ∧ l.host.isHost = true ∧
    (l.players.map (fun p => p.userId)).Nodup

instance (l : QLobby) : Decidable (LobbyInv l) := by
  unfold LobbyInv
  infer_instance

/-- Settings of the claim C1 demonstration lobby: the host does not
participate. -/
def c1Settings : QSettings :=
  { winCondition := WinCond.score, correctAnswersThreshold := none,
    scoreThreshold := none, timeLimit := none, resetOnIncorrect := false,
    questionTimeLimit := 20, allowLateJoin := false, hostParticipates := false }

/-- A lobby created with `hostParticipates = false` (so `players` starts
empty and never contains the host) that two players, alice and bob, have
joined; the game has been started. -/
def c1Lobby : QLobby :=
  { (joinLobby (joinLobby (createLobby (createPlayer 0 "host" "host" true false)
      "deck" c1Settings) 1 "alice" "alice" false).1 2 "bob" "bob" false).1
    with status := LobbyStatus.playing }

/-- The claim C1 demonstration game: first question active, no answers
yet, question timer armed. -/
def c1Game : QGame :=
  { lobby := c1Lobby
    currentQuestionIndex := 0
    questions := [⟨0⟩]
    questionStartTime := 0
    answersSubmitted := []
    timerArmed := true }

/-- A two-player quiz game (participating host `hh` plus player `aa`,
`questionTimeLimit = 20`) used to instantiate the scoring theorem. -/
def scoringDemoGame : QGame :=
  { lobby :=
    { host := createPlayer 0 "hh" "hh" true false
      players := [createPlayer 0 "hh" "hh" true false,
                  createPlayer 1 "aa" "aa" false false]
      deckId := "d"
      settings :=
        { winCondition := WinCond.score
          correctAnswersThreshold := none
          scoreThreshold := none
          timeLimit := none
          resetOnIncorrect := true
          questionTimeLimit := 20
          allowLateJoin := false
          hostParticipates := true }
      status := LobbyStatus.playing }
    currentQuestionIndex := 0
    questions := [⟨2⟩]
    questionStartTime := 0
    answersSubmitted := []
    timerArmed := true }

/-! ## Helper lemmas -/

theorem setBid_registered (g : ChessGame) (c : Color) (b : Int) :
    (g.setBid c b).registered = g.registered := by
  cases c <;> rfl

theorem setBid_phase (g : ChessGame) (c : Color) (b : Int) :
    (g.setBid c b).phase = g.phase := by
  cases c <;> rfl

theorem setBid_bidOf_self (g : ChessGame) (c : Color) (b : Int) :
    (g.setBid c b).bidOf c = some b := by
  cases c <;> rfl

theorem setBid_bidOf_other (g : ChessGame) (c : Color) (b : Int) :
    (g.setBid c b).bidOf c.other = g.bidOf c.other := by
  cases c <;> rfl

theorem floor_natCast_q (a : ℕ) : ⌊(a : ℚ)⌋ = (a : ℤ) := Int.floor_natCast a

/-- A bid recorded while the opponent has not yet bid does not resolve
bidding: the handler only records the sanitized bid. -/
theorem bidHandler_other_none (E : Engine) (g : ChessGame) (c : Color) (t : ℚ)
    (hreg : g.registered = true) (hph : g.phase = ChessPhase.bidding)
    (hother : g.bidOf c.other = none) :
    bidHandler E g c t = (g.setBid c (max MIN_BID ⌊t⌋), []) := by
  cases c with
  | white =>
    have hb : g.black.bid = none := hother
    simp [bidHandler, hreg, hph, ChessGame.setBid, jsTruthy, hb]
  | black =>
    have hb : g.white.bid = none := hother
    simp [bidHandler, hreg, hph, ChessGame.setBid, jsTruthy, hb]

/-- A bid recorded while the opponent already has a (nonzero) bid
resolves bidding: stop the bidding timer and run the shared resolution. -/
theorem bidHandler_completes (E : Engine) (g : ChessGame) (c : Color) (t : ℚ)
    (b0 : Int) (hreg : g.registered = true)
    (hph : g.phase = ChessPhase.bidding)
    (hother : g.bidOf c.other = some b0) (hb0 : b0 ≠ 0) :
    bidHandler E g c t =
      resolveBidsS E (stopBiddingS (g.setBid c (max MIN_BID ⌊t⌋))) := by
  have hpos : (0 : ℤ) < max MIN_BID ⌊t⌋ :=
    lt_of_lt_of_le (by norm_num [MIN_BID]) (le_max_left _ _)
  cases c with
  | white =>
    have hb : g.black.bid = some b0 := hother
    simp [bidHandler, hreg, hph, ChessGame.setBid, jsTruthy, hb, hb0,
      hpos.ne']
  | black =>
    have hb : g.white.bid = some b0 := hother
    simp [bidHandler, hreg, hph, ChessGame.setBid, jsTruthy, hb, hb0,
      hpos.ne']

/-! ## Claim theorems -/

/-- Claim C2, counterexample: in a fresh bidding-phase session, an
explicit white bid of 10 seconds (below the 60-second floor) is *not*
rejected — no error is emitted and a bid of 60 is recorded for white,
because the handler clamps with `Math.max(MIN_BID, Math.floor(t))`
before its `bid < MIN_BID` test. -/
theorem bid_below_floor_not_rejected :
    (bidHandler sampleEngine (initialGame "w" "b" 0) Color.white 10).2 = [] ∧
    (bidHandler sampleEngine (initialGame "w" "b" 0) Color.white 10).1.white.bid
      = some 60 := by
  decide

/-- Claim C2, amended: for every match session in the bidding phase, an
explicit bid submission whose value after flooring is below the
60-second floor is clamped up to the floor and recorded as the
submitter's bid, with no error emitted and no other change (stated here
for the case where the opponent has not yet bid, so bidding does not
resolve); clamping is not reserved to timeout auto-resolution. -/
theorem bid_below_floor_clamped (E : Engine) (g : ChessGame) (c : Color) (t : ℚ)
    (hreg : g.registered = true) (hph : g.phase = ChessPhase.bidding)
    (hother : g.bidOf c.other = none) (hlow : ⌊t⌋ < MIN_BID) :
    bidHandler E g c t = (g.setBid c MIN_BID, []) := by
  have hmax : max MIN_BID ⌊t⌋ = MIN_BID := max_eq_left (le_of_lt hlow)
  cases c with
  | white =>
    have hb : g.black.bid = none := hother
    simp [bidHandler, hreg, hph, hmax, ChessGame.setBid, jsTruthy, hb]
  | black =>
    have hb : g.white.bid = none := hother
    simp [bidHandler, hreg, hph, hmax, ChessGame.setBid, jsTruthy, hb]

/-- Witness for `bid_below_floor_clamped` at a concrete input. -/
theorem bid_below_floor_clamped_witness :
    bidHandler sampleEngine (initialGame "w" "b" 0) Color.white 10
      = ((initialGame "w" "b" 0).setBid Color.white MIN_BID, []) :=
  bid_below_floor_clamped sampleEngine (initialGame "w" "b" 0) Color.white 10
    rfl rfl rfl (by norm_num [MIN_BID])

/-- Claim C4, counterexample: during the same bidding phase a second bid
submission by the same player yields no error and overwrites the
recorded bid — white bids 60, then bids 90, and the stored bid becomes
90 with an empty output list (the bid handler has no duplicate check;
only leaving the bidding phase makes further bids fail). -/
theorem second_bid_overwrites :
    (bidHandler sampleEngine
      (bidHandler sampleEngine (initialGame "w" "b" 0) Color.white 60).1
      Color.white 90).2 = [] ∧
    (bidHandler sampleEngine
      (bidHandler sampleEngine (initialGame "w" "b" 0) Color.white 60).1
      Color.white 90).1.white.bid = some 90 := by
  decide

/-- Claim C4, amended: a second answer submission for the same quiz
question always yields an error to the submitter and leaves the game
state unchanged; a second *bid* submission during the same bidding phase,
however, is accepted without error and overwrites the player's earlier
bid (stated for an opponent who has not yet bid), and only a bid sent
after the bidding phase has ended yields an error without mutation. -/
theorem second_submission_behavior :
    (∀ (g : QGame) (uid : String) (idx : Int) (now : Nat),
      g.answersSubmitted.any (fun kv => kv.1 = uid) = true →
      submitAnswer g uid idx now =
        (g, [QOut.error uid "Already submitted answer for this question"])) ∧
    (∀ (E : Engine) (g : ChessGame) (c : Color) (t : ℚ) (b0 : Int),
      g.registered = true → g.phase = ChessPhase.bidding →
      g.bidOf c = some b0 → g.bidOf c.other = none →
      bidHandler E g c t = (g.setBid c (max MIN_BID ⌊t⌋), [])) ∧
    (∀ (E : Engine) (g : ChessGame) (c : Color) (t : ℚ),
      g.registered = true → g.phase ≠ ChessPhase.bidding →
      bidHandler E g c t = (g, [ChessOut.error c "Bidding phase is over"])) := by
  refine ⟨?_, ?_, ?_⟩
  · intro g uid idx now h
    simp [submitAnswer, h]
  · intro E g c t b0 hreg hph _hself hother
    cases c with
    | white =>
      have hb : g.black.bid = none := hother
      simp [bidHandler, hreg, hph, ChessGame.setBid, jsTruthy, hb]
    | black =>
      have hb : g.white.bid = none := hother
      simp [bidHandler, hreg, hph, ChessGame.setBid, jsTruthy, hb]
  · intro E g c t hreg hph
    simp [bidHandler, hreg, hph]

/-- Witness for `second_submission_behavior`: concrete instances of all
three conjuncts. -/
theorem second_submission_behavior_witness :
    (submitAnswer
      { lobby := createLobby (createPlayer 0 "h" "h" true false) "d"
          { winCondition := WinCond.score, correctAnswersThreshold := none,
            scoreThreshold := none, timeLimit := none,
            resetOnIncorrect := false, questionTimeLimit := 20,
            allowLateJoin := false, hostParticipates := true }
        currentQuestionIndex := 0
        questions := [⟨0⟩]
        questionStartTime := 0
        answersSubmitted := [("h", 1)]
        timerArmed := true } "h" 2 500 =
      ({ lobby := createLobby (createPlayer 0 "h" "h" true false) "d"
          { winCondition := WinCond.score, correctAnswersThreshold := none,
            scoreThreshold := none, timeLimit := none,
            resetOnIncorrect := false, questionTimeLimit := 20,
            allowLateJoin := false, hostParticipates := true }
         currentQuestionIndex := 0
         questions := [⟨0⟩]
         questionStartTime := 0
         answersSubmitted := [("h", 1)]
         timerArmed := true },
       [QOut.error "h" "Already submitted answer for this question"])) ∧
    (bidHandler sampleEngine
        ((initialGame "w" "b" 0).setBid Color.white 60) Color.white 90 =
      (((initialGame "w" "b" 0).setBid Color.white 60).setBid Color.white
        (max MIN_BID ⌊(90 : ℚ)⌋), [])) ∧
    (bidHandler sampleEngine
        { initialGame "w" "b" 0 with phase := ChessPhase.playing }
        Color.white 70 =
      ({ initialGame "w" "b" 0 with phase := ChessPhase.playing },
       [ChessOut.error Color.white "Bidding phase is over"])) :=
  ⟨second_submission_behavior.1 _ "h" 2 500 (by decide),
   second_submission_behavior.2.1 sampleEngine _ Color.white 90 60
     (by decide) (by decide) (by decide) (by decide),
   second_submission_behavior.2.2 sampleEngine _ Color.white 70
     (by decide) (by decide)⟩

/-- Claim C3: once both colors have a recorded bid the bidding timer is
cancelled, the phase becomes `playing` and both clocks are set to
`max(60, min(whiteBid, blackBid))` — equal to `min(a, b)` for valid bids
`a, b ≥ 60` (first conjunct: white bids `a` then black bids `b` in a
fresh bidding state); if the bidding window elapses with a bid missing,
the missing bid defaults to 120 and the same resolution runs: with only
white's bid `a ≥ 60` recorded the clock is `min(a, 120)` (second
conjunct), and with both missing it is 120 (third conjunct). -/
theorem bidding_clock_resolution (E : Engine) (g g' g'' : ChessGame)
    (a b : ℕ)
    (hreg : g.registered = true) (hph : g.phase = ChessPhase.bidding)
    (hbk : g.black.bid = none)
    (ha : 60 ≤ a) (hb : 60 ≤ b)
    (h'arm : g'.biddingArmed = true) (h'tl : g'.biddingTimeLeft ≤ 1)
    (h'w : g'.white.bid = some (a : ℤ)) (h'bk : g'.black.bid = none)
    (h''arm : g''.biddingArmed = true) (h''tl : g''.biddingTimeLeft ≤ 1)
    (h''w : g''.white.bid = none) (h''bk : g''.black.bid = none) :
    (let g2 := (bidHandler E (bidHandler E g Color.white (a : ℚ)).1
        Color.black (b : ℚ)).1
     g2.phase = ChessPhase.playing ∧ g2.biddingArmed = false ∧
     g2.whiteTime = ((min a b : ℕ) : ℤ) ∧
     g2.blackTime = ((min a b : ℕ) : ℤ) ∧
     g2.armedFor = some (E.turnOf g2.pos)) ∧
    (let g3 := (biddingTickS E g').1
     g3.phase = ChessPhase.playing ∧ g3.biddingArmed = false ∧
     g3.whiteTime = min (a : ℤ) 120 ∧ g3.blackTime = min (a : ℤ) 120 ∧
     g3.armedFor = some (E.turnOf g3.pos)) ∧
    (let g4 := (biddingTickS E g'').1
     g4.phase = ChessPhase.playing ∧ g4.biddingArmed = false ∧
     g4.whiteTime = 120 ∧ g4.blackTime = 120 ∧
     g4.armedFor = some (E.turnOf g4.pos)) := by
  have haZ : (60 : ℤ) ≤ (a : ℤ) := by exact_mod_cast ha
  have hbZ : (60 : ℤ) ≤ (b : ℤ) := by exact_mod_cast hb
  have hfa : ⌊((a : ℕ) : ℚ)⌋ = (a : ℤ) := floor_natCast_q a
  have hfb : ⌊((b : ℕ) : ℚ)⌋ = (b : ℤ) := floor_natCast_q b
  have hmaxa : max MIN_BID ⌊((a : ℕ) : ℚ)⌋ = (a : ℤ) := by
    rw [hfa]; exact max_eq_right haZ
  have hmaxb : max MIN_BID ⌊((b : ℕ) : ℚ)⌋ = (b : ℤ) := by
    rw [hfb]; exact max_eq_right hbZ
  refine ⟨?_, ?_, ?_⟩
  · have h1 : bidHandler E g Color.white ((a : ℕ) : ℚ) =
        (g.setBid Color.white (a : ℤ), []) := by
      rw [bidHandler_other_none E g Color.white _ hreg hph hbk, hmaxa]
    have hreg1 : (g.setBid Color.white (a : ℤ)).registered = true := by
      rw [setBid_registered, hreg]
    have hph1 : (g.setBid Color.white (a : ℤ)).phase = ChessPhase.bidding := by
      rw [setBid_phase, hph]
    have hoth1 : (g.setBid Color.white (a : ℤ)).bidOf Color.black.other
        = some (a : ℤ) := setBid_bidOf_self g Color.white (a : ℤ)
    have haNe : (a : ℤ) ≠ 0 := by positivity
    have h2 := bidHandler_completes E (g.setBid Color.white (a : ℤ))
      Color.black ((b : ℕ) : ℚ) (a : ℤ) hreg1 hph1 hoth1 haNe
    rw [h1]
    simp only [h2, hmaxb]
    have hsel : max MIN_BID (min (a : ℤ) (b : ℤ)) = min (a : ℤ) (b : ℤ) :=
      max_eq_right (le_min haZ hbZ)
    simp [resolveBidsS, stopBiddingS, startTimerS, ChessGame.setBid,
      hsel, Nat.cast_min]
  · have htl : g'.biddingTimeLeft - 1 ≤ 0 := by omega
    have haNe : (a : ℤ) ≠ 0 := by positivity
    have hsel : max MIN_BID (min (a : ℤ) 120) = min (a : ℤ) 120 :=
      max_eq_right (le_min haZ (by norm_num [MIN_BID]))
    simp [biddingTickS, h'arm, htl, h'w, h'bk, jsTruthy, haNe,
      resolveBidsS, stopBiddingS, startTimerS, hsel]
  · have htl : g''.biddingTimeLeft - 1 ≤ 0 := by omega
    simp [biddingTickS, h''arm, htl, h''w, h''bk, jsTruthy,
      resolveBidsS, stopBiddingS, startTimerS, MIN_BID]

/-- Witness for `bidding_clock_resolution`: white bids 70, black bids 90
in a fresh session (clock 70); timeout with only white's 70 (clock 70);
timeout with no bids (clock 120). -/
theorem bidding_clock_resolution_witness :
    (let g2 := (bidHandler sampleEngine
        (bidHandler sampleEngine (initialGame "w" "b" 0) Color.white
          ((70 : ℕ) : ℚ)).1 Color.black ((90 : ℕ) : ℚ)).1
     g2.phase = ChessPhase.playing ∧ g2.biddingArmed = false ∧
     g2.whiteTime = ((min 70 90 : ℕ) : ℤ) ∧
     g2.blackTime = ((min 70 90 : ℕ) : ℤ) ∧
     g2.armedFor = some (sampleEngine.turnOf g2.pos)) ∧
    (let g3 := (biddingTickS sampleEngine
        { (initialGame "w" "b" 0).setBid Color.white 70 with
          biddingTimeLeft := 1 }).1
     g3.phase = ChessPhase.playing ∧ g3.biddingArmed = false ∧
     g3.whiteTime = min ((70 : ℕ) : ℤ) 120 ∧
     g3.blackTime = min ((70 : ℕ) : ℤ) 120 ∧
     g3.armedFor = some (sampleEngine.turnOf g3.pos)) ∧
    (let g4 := (biddingTickS sampleEngine
        { initialGame "w" "b" 0 with biddingTimeLeft := 1 }).1
     g4.phase = ChessPhase.playing ∧ g4.biddingArmed = false ∧
     g4.whiteTime = 120 ∧ g4.blackTime = 120 ∧
     g4.armedFor = some (sampleEngine.turnOf g4.pos)) :=
  bidding_clock_resolution sampleEngine (initialGame "w" "b" 0)
    { (initialGame "w" "b" 0).setBid Color.white 70 with biddingTimeLeft := 1 }
    { initialGame "w" "b" 0 with biddingTimeLeft := 1 }
    70 90 rfl rfl rfl (by norm_num) (by norm_num)
    (by decide) (by decide) (by decide) (by decide)
    (by decide) (by decide) (by decide) (by decide)

/-- Effect of a fresh, in-range `submit_answer` on the player list: the
submitting identity's record is updated (correct: count+1 and score
increase; incorrect with `resetOnIncorrect`: count reset), everyone else
is untouched — identical in both completion-check branches, since
finalization does not modify player records. -/
theorem submitAnswer_players_eq (g : QGame) (uid : String) (idx : Int)
    (now : Nat)
    (hfresh : g.answersSubmitted.any (fun kv => kv.1 = uid) = false)
    (h0 : 0 ≤ idx) (h3 : idx ≤ 3) :
    (submitAnswer g uid idx now).1.lobby.players =
      g.lobby.players.map (fun p =>
        if p.userId = uid then
          if idx = (g.questions.getD g.currentQuestionIndex ⟨0⟩).correctIndex
          then
            { p with correctAnswers := p.correctAnswers + 1,
                     score := p.score + pointsFor
                       g.lobby.settings.questionTimeLimit
                       (now - g.questionStartTime) }
          else if g.lobby.settings.resetOnIncorrect then
            { p with correctAnswers := 0 }
          else p
        else p) := by
  have hng : ¬(idx < 0 ∨ idx > 3) := by omega
  simp only [submitAnswer, hfresh, Bool.false_eq_true, if_false, hng,
    showQuestionResults]
  split <;>
    simp only [apply_ite (fun r : QGame × List QOut => r.1.lobby.players),
      ite_self]

/-- Claim C5: a fresh in-range answer that matches the correct index
increments the submitter's correct-answer count and adds exactly
`100 + floor(max(0, questionTimeLimit − elapsedSeconds) × 10)` points
(elapsed time `now − questionStartTime` in milliseconds); an incorrect
answer under `resetOnIncorrect` zeroes the correct-answer count and
leaves the score as it was; and no player's score ever decreases. -/
theorem answer_scoring (g : QGame) (uid : String) (idx : Int) (now : Nat)
    (hfresh : g.answersSubmitted.any (fun kv => kv.1 = uid) = false)
    (h0 : 0 ≤ idx) (h3 : idx ≤ 3) :
    (∀ p ∈ g.lobby.players, p.userId = uid →
      (idx = (g.questions.getD g.currentQuestionIndex ⟨0⟩).correctIndex →
        { p with correctAnswers := p.correctAnswers + 1,
                 score := p.score + 100 +
                   (⌊(max 0 ((g.lobby.settings.questionTimeLimit : ℚ) -
                       ((now - g.questionStartTime : ℕ) : ℚ) / 1000)) *
                     10⌋).toNat }
          ∈ (submitAnswer g uid idx now).1.lobby.players) ∧
      (idx ≠ (g.questions.getD g.currentQuestionIndex ⟨0⟩).correctIndex →
        g.lobby.settings.resetOnIncorrect = true →
        { p with correctAnswers := 0 }
          ∈ (submitAnswer g uid idx now).1.lobby.players)) ∧
    (∀ p ∈ g.lobby.players,
      ∃ p' ∈ (submitAnswer g uid idx now).1.lobby.players,
        p'.userId = p.userId ∧ p.score ≤ p'.score) := by
  rw [submitAnswer_players_eq g uid idx now hfresh h0 h3]
  constructor
  · intro p hp hpid
    constructor
    · intro hcorr
      have hscore : p.score + pointsFor g.lobby.settings.questionTimeLimit
          (now - g.questionStartTime) =
          p.score + 100 +
            (⌊(max 0 ((g.lobby.settings.questionTimeLimit : ℚ) -
                ((now - g.questionStartTime : ℕ) : ℚ) / 1000)) * 10⌋).toNat := by
        unfold pointsFor
        ring
      refine List.mem_map.mpr ⟨p, hp, ?_⟩
      simp only [if_pos hpid, if_pos hcorr]
      rw [hscore]
    · intro hwrong hreset
      refine List.mem_map.mpr ⟨p, hp, ?_⟩
      simp only [if_pos hpid, if_neg hwrong, if_pos hreset]
  · intro p hp
    refine ⟨_, List.mem_map_of_mem _ hp, ?_, ?_⟩ <;>
      split_ifs <;> simp

/-- Witness for `answer_scoring`: with `questionTimeLimit = 20` and a
correct answer at 5000 ms (5 elapsed seconds), player `aa` ends with
`100 + floor(15 × 10) = 250` points and one correct answer. -/
theorem answer_scoring_witness :
    ({ sid := 1, userId := "aa", username := "aa", score := 250,
       correctAnswers := 1, isHost := false, isGuest := false } : QPlayer)
      ∈ (submitAnswer scoringDemoGame "aa" 2 5000).1.lobby.players := by
  have h := ((answer_scoring scoringDemoGame "aa" 2 5000 rfl (by decide)
      (by decide)).1 (createPlayer 1 "aa" "aa" false false) (by decide)
      rfl).1 rfl
  have hval : (⌊(max 0 ((scoringDemoGame.lobby.settings.questionTimeLimit : ℚ) -
      ((5000 - scoringDemoGame.questionStartTime : ℕ) : ℚ) / 1000)) *
        10⌋).toNat = 150 := by
    show (⌊(max 0 (((20 : ℕ) : ℚ) - (((5000 - 0 : ℕ)) : ℚ) / 1000)) *
      10⌋).toNat = 150
    norm_num
    rfl
  have heq : ({ createPlayer 1 "aa" "aa" false false with
      correctAnswers := (createPlayer 1 "aa" "aa" false false).correctAnswers
        + 1
      score := (createPlayer 1 "aa" "aa" false false).score + 100 +
        (⌊(max 0 ((scoringDemoGame.lobby.settings.questionTimeLimit : ℚ) -
            ((5000 - scoringDemoGame.questionStartTime : ℕ) : ℚ) / 1000)) *
          10⌋).toNat } : QPlayer) =
      { sid := 1, userId := "aa", username := "aa", score := 250,
        correctAnswers := 1, isHost := false, isGuest := false } := by
    rw [hval]
    rfl
  rw [heq] at h
  exact h


/-- Claim C7: a move by the side to move in a playing session first stops
the mover's timer (the definition of `moveHandler` applies `stopTimerS`
before consulting the rule engine, mirroring the source's
stop-before-validate order); when the engine rejects the move, the
resulting state is the original one with the timer re-armed for the same
color — position, both clocks, phase and draw-offer state unchanged —
and the only output is an error to the mover. -/
theorem illegal_move_restores_timer (E : Engine) (g : ChessGame) (c : Color)
    (m : Nat) (hreg : g.registered = true)
    (hph : g.phase = ChessPhase.playing) (hturn : E.turnOf g.pos = c)
    (hill : E.applyMove g.pos m = none) :
    moveHandler E g c m =
      ({ g with armedFor := some c }, [ChessOut.error c "Invalid move"]) := by
  simp only [moveHandler, hreg, hph, hturn, stopTimerS, startTimerS, hill]
  simp [hturn]

/-- Witness for `illegal_move_restores_timer`: in `sampleEngine`, move 0
from position 0 is illegal; white keeps the clock. -/
theorem illegal_move_restores_timer_witness :
    moveHandler sampleEngine
      { initialGame "w" "b" 0 with
        phase := ChessPhase.playing
        armedFor := some Color.white
        whiteTime := 60
        blackTime := 60 }
      Color.white 0 =
    ({ initialGame "w" "b" 0 with
       phase := ChessPhase.playing
       armedFor := some Color.white
       whiteTime := 60
       blackTime := 60 },
     [ChessOut.error Color.white "Invalid move"]) :=
  illegal_move_restores_timer sampleEngine _ Color.white 0 rfl rfl rfl rfl

/-- Claim C9: a disconnect during `bidding` (opponent still connected)
stops the bidding timer, deregisters the session, notifies the remaining
player with `opponent_disconnected`, and pushes exactly that player back
onto the matchmaking queue; a disconnect during `playing` ends the game
— phase `ended`, deregistered, turn timer stopped — with a `win` event
to the remaining player naming them winner with reason
`opponent disconnected`, and no one is re-queued. -/
theorem disconnect_handling (g g' : ChessGame) (c : Color)
    (hreg : g.registered = true) (hph : g.phase = ChessPhase.bidding)
    (h'reg : g'.registered = true) (h'ph : g'.phase = ChessPhase.playing)
    (hconn : (g.playerOf c.other).connected = true)
    (h'conn : (g'.playerOf c.other).connected = true) :
    ((disconnectCore g c).1.registered = false ∧
     (disconnectCore g c).1.biddingArmed = false ∧
     (disconnectCore g c).2.1 = [ChessOut.opponentDisconnected c.other] ∧
     (disconnectCore g c).2.2 = some (g.playerOf c.other)) ∧
    ((disconnectCore g' c).1.registered = false ∧
     (disconnectCore g' c).1.phase = ChessPhase.ended ∧
     (disconnectCore g' c).1.armedFor = none ∧
     ChessOut.win c.other ((g'.playerOf c.other).userId)
       "opponent disconnected" ∈ (disconnectCore g' c).2.1 ∧
     (disconnectCore g' c).2.2 = none) := by
  cases c with
  | white =>
    have hc : g.black.connected = true := hconn
    have h'c : g'.black.connected = true := h'conn
    refine ⟨?_, ?_⟩
    · simp [disconnectCore, ChessGame.setConnected, ChessGame.playerOf,
        Color.other, stopBiddingS, hreg, hph, hc]
    · simp [disconnectCore, ChessGame.setConnected, ChessGame.playerOf,
        Color.other, endGameS, stopTimerS, h'reg, h'ph, h'c]
  | black =>
    have hc : g.white.connected = true := hconn
    have h'c : g'.white.connected = true := h'conn
    refine ⟨?_, ?_⟩
    · simp [disconnectCore, ChessGame.setConnected, ChessGame.playerOf,
        Color.other, stopBiddingS, hreg, hph, hc]
    · simp [disconnectCore, ChessGame.setConnected, ChessGame.playerOf,
        Color.other, endGameS, stopTimerS, h'reg, h'ph, h'c]

/-- Witness for `disconnect_handling`: black disconnects from a fresh
bidding session, and from a playing session. -/
theorem disconnect_handling_witness :
    ((disconnectCore (initialGame "w" "b" 0) Color.black).1.registered
        = false ∧
     (disconnectCore (initialGame "w" "b" 0) Color.black).1.biddingArmed
        = false ∧
     (disconnectCore (initialGame "w" "b" 0) Color.black).2.1
        = [ChessOut.opponentDisconnected Color.black.other] ∧
     (disconnectCore (initialGame "w" "b" 0) Color.black).2.2
        = some ((initialGame "w" "b" 0).playerOf Color.black.other)) ∧
    ((disconnectCore
        { initialGame "w" "b" 0 with phase := ChessPhase.playing }
        Color.black).1.registered = false ∧
     (disconnectCore
        { initialGame "w" "b" 0 with phase := ChessPhase.playing }
        Color.black).1.phase = ChessPhase.ended ∧
     (disconnectCore
        { initialGame "w" "b" 0 with phase := ChessPhase.playing }
        Color.black).1.armedFor = none ∧
     ChessOut.win Color.black.other
       ((({ initialGame "w" "b" 0 with phase := ChessPhase.playing }
          : ChessGame).playerOf Color.black.other).userId)
       "opponent disconnected" ∈
       (disconnectCore
         { initialGame "w" "b" 0 with phase := ChessPhase.playing }
         Color.black).2.1 ∧
     (disconnectCore
        { initialGame "w" "b" 0 with phase := ChessPhase.playing }
        Color.black).2.2 = none) :=
  disconnect_handling (initialGame "w" "b" 0)
    { initialGame "w" "b" 0 with phase := ChessPhase.playing }
    Color.black rfl rfl rfl rfl rfl rfl

/-- Claim C10: when the win condition's matching threshold setting is
absent, the threshold comparison (JS `>=` against `undefined`) is always
false, so `nextQuestion` can only end the game with reason
`all_questions_completed` (a quiz game otherwise disappears only when
its lobby empties, which deletes the game without an end reason). -/
theorem missing_threshold_never_ends (g : QGame) (now : Nat)
    (hca : g.lobby.settings.winCondition = WinCond.correct_answers →
      g.lobby.settings.correctAnswersThreshold = none)
    (hsc : g.lobby.settings.winCondition = WinCond.score →
      g.lobby.settings.scoreThreshold = none) :
    ∀ r, (nextQuestion g now).2 = NextOutcome.ended r →
      r = "all_questions_completed" := by
  intro r h
  unfold nextQuestion at h
  by_cases hq : g.currentQuestionIndex + 1 ≥ g.questions.length
  · simp only [hq, if_true] at h
    exact (NextOutcome.ended.injEq _ _ ▸ h : _ = r).symm
  · simp only [hq, if_false] at h
    cases hwc : g.lobby.settings.winCondition with
    | correct_answers =>
      simp [hwc, hca hwc, jsGeOpt] at h
    | score =>
      simp [hwc, hsc hwc, jsGeOpt] at h
    | time =>
      simp [hwc] at h

/-- Witness for `missing_threshold_never_ends`: a score-condition game
with no `scoreThreshold` whose last question was just played ends, and
the theorem forces the reason to be `all_questions_completed`. -/
theorem missing_threshold_never_ends_witness :
    (nextQuestion c1Game 0).2
        = NextOutcome.ended "all_questions_completed" ∧
    "all_questions_completed" = "all_questions_completed" :=
  ⟨by decide, missing_threshold_never_ends c1Game 0 (fun _ => rfl)
    (fun _ => rfl) "all_questions_completed" (by decide)⟩

/-- Claim C1 (failing input): in `c1Game` — a lobby created with
`hostParticipates = false`, so the host is *not* in `players`, with two
eligible players alice and bob and no answers yet — alice's single
submission already finalizes the question: the timer is cancelled and
`question_results` is broadcast even though bob, an eligible player, has
not answered.  The completion check compares the answered count against
`players.length - 1` (subtracting a host who is not in the list), and
its host-exclusion filter destructures each answered id to its first
character, so it never actually excludes anyone; the code's own comment
says "Check if all players have answered", which this input refutes. -/
theorem premature_finalization_on_submission :
    QOut.questionResults 0 ∈ (submitAnswer c1Game "alice" 0 1000).2 ∧
    (submitAnswer c1Game "alice" 0 1000).1.timerArmed = false ∧
    (∃ p ∈ c1Game.lobby.players, p.userId = "bob") ∧
    (∀ kv ∈ (submitAnswer c1Game "alice" 0 1000).1.answersSubmitted,
      kv.1 ≠ "bob") := by
  decide

/-- Transport of the timer invariant along a state change that preserves
the timer flags, the phase and the registration bit. -/
theorem ChessTimerInv_of_fields (g g' : ChessGame)
    (hb : g'.biddingArmed = g.biddingArmed) (ha : g'.armedFor = g.armedFor)
    (hp : g'.phase = g.phase) (hr : g'.registered = g.registered)
    (h : ChessTimerInv g) : ChessTimerInv g' := by
  obtain ⟨h1, h2⟩ := h
  constructor
  · intro hbid
    rw [hb] at hbid
    rw [hp, hr]
    exact h1 hbid
  · intro harm
    rw [ha] at harm
    rw [hp, hr]
    exact h2 harm

/-- `endGame` leaves no armed timer, provided the bidding timer was
already off (`endGame` itself never cancels the bidding timer). -/
theorem endGameS_inv (g : ChessGame) (w : Option Color) (r : String)
    (hb : g.biddingArmed = false) : ChessTimerInv (endGameS g w r).1 := by
  constructor
  · intro hbid
    exact absurd hbid (by simp [endGameS, stopTimerS, hb])
  · intro harm
    exact absurd harm (by simp [endGameS, stopTimerS])

/-- In an invariant state whose phase is not `bidding`, the bidding
timer is off. -/
theorem inv_bidding_off (g : ChessGame) (h : ChessTimerInv g)
    (hph : g.phase ≠ ChessPhase.bidding) : g.biddingArmed = false := by
  by_cases hb : g.biddingArmed = true
  · exact absurd (h.1 hb).1 hph
  · simpa using hb

/-- Bidding resolution arms only the turn timer, in the `playing` phase
of a registered session. -/
theorem resolveBidsS_inv (E : Engine) (g : ChessGame)
    (hb : g.biddingArmed = false) (hr : g.registered = true) :
    ChessTimerInv (resolveBidsS E g).1 := by
  constructor
  · intro hbid
    exact absurd hbid (by simp [resolveBidsS, startTimerS, hb])
  · intro _
    exact ⟨rfl, hr⟩

/-- The three possible results of the `bid` handler: rejection (state
unchanged), recording only, or recording plus resolution. -/
theorem bidHandler_shape (E : Engine) (g : ChessGame) (c : Color) (t : ℚ) :
    (bidHandler E g c t).1 = g ∨
    (bidHandler E g c t).1 = g.setBid c (max MIN_BID ⌊t⌋) ∨
    ((bidHandler E g c t).1 =
      (resolveBidsS E (stopBiddingS (g.setBid c (max MIN_BID ⌊t⌋)))).1 ∧
      g.registered = true) := by
  by_cases hr : g.registered = true
  · by_cases hp : g.phase = ChessPhase.bidding
    · by_cases hb : jsTruthy (g.setBid c (max MIN_BID ⌊t⌋)).white.bid = true ∧
          jsTruthy (g.setBid c (max MIN_BID ⌊t⌋)).black.bid = true
      · right; right
        refine ⟨?_, hr⟩
        simp [bidHandler, hr, hp, hb.1, hb.2]
      · right; left
        simp [bidHandler, hr, hp, hb]
    · left
      simp [bidHandler, hr, hp]
  · left
    simp [bidHandler, hr]

theorem setBid_fields_inv (g : ChessGame) (c : Color) (b : Int)
    (h : ChessTimerInv g) : ChessTimerInv (g.setBid c b) := by
  cases c <;> exact ChessTimerInv_of_fields g _ rfl rfl rfl rfl h

theorem bidHandler_inv (E : Engine) (g : ChessGame) (c : Color) (t : ℚ)
    (h : ChessTimerInv g) : ChessTimerInv (bidHandler E g c t).1 := by
  rcases bidHandler_shape E g c t with hs | hs | ⟨hs, hreg⟩
  · rw [hs]; exact h
  · rw [hs]; exact setBid_fields_inv g c _ h
  · rw [hs]
    apply resolveBidsS_inv
    · rfl
    · cases c <;> exact hreg

/-- The three possible results of a bidding-interval firing: inactive
timer, countdown only, or timeout resolution (on a state with the
bidding timer stopped and defaults filled in). -/
theorem biddingTickS_shape (E : Engine) (g : ChessGame) :
    (biddingTickS E g).1 = g ∨
    ((biddingTickS E g).1 =
        { g with biddingTimeLeft := g.biddingTimeLeft - 1 } ∧
      g.biddingArmed = true) ∨
    (∃ g4 : ChessGame, (biddingTickS E g).1 = (resolveBidsS E g4).1 ∧
      g4.biddingArmed = false ∧ g4.registered = g.registered ∧
      g.biddingArmed = true) := by
  by_cases ha : g.biddingArmed = true
  · by_cases htl : g.biddingTimeLeft - 1 ≤ 0
    · right; right
      refine ⟨(fun g3 => if jsTruthy g3.black.bid = true then g3
            else { g3 with black := { g3.black with bid := some 120 } })
          ((fun g2 => if jsTruthy g2.white.bid = true then g2
            else { g2 with white := { g2.white with bid := some 120 } })
            (stopBiddingS { g with
              biddingTimeLeft := g.biddingTimeLeft - 1 })),
        ?_, ?_, ?_, ha⟩
      · simp [biddingTickS, ha, htl]
      · beta_reduce
        split_ifs <;> rfl
      · beta_reduce
        split_ifs <;> rfl
    · right; left
      exact ⟨by simp [biddingTickS, ha, htl], ha⟩
  · left
    simp [biddingTickS, ha]

theorem biddingTickS_inv (E : Engine) (g : ChessGame)
    (h : ChessTimerInv g) : ChessTimerInv (biddingTickS E g).1 := by
  rcases biddingTickS_shape E g with hs | ⟨hs, _⟩ | ⟨g4, hs, hb4, hr4, ha⟩
  · rw [hs]; exact h
  · rw [hs]; exact ChessTimerInv_of_fields g _ rfl rfl rfl rfl h
  · rw [hs]
    exact resolveBidsS_inv E g4 hb4 (by rw [hr4]; exact (h.1 ha).2)

/-- The possible results of a turn-clock firing: inactive timer,
countdown only, or flag-fall ending the game. -/
theorem turnTickS_shape (E : Engine) (g : ChessGame) :
    (turnTickS E g).1 = g ∨
    (∃ c, g.armedFor = some c ∧
      ((turnTickS E g).1 = g.decTime c ∨
       (turnTickS E g).1 =
         (endGameS (stopTimerS (g.decTime c))
           (some (E.turnOf (stopTimerS (g.decTime c)).pos).other)
           "time").1)) := by
  cases harm : g.armedFor with
  | none => left; simp [turnTickS, harm]
  | some c =>
    right
    refine ⟨c, rfl, ?_⟩
    by_cases htl : (g.decTime c).timeOf c ≤ 0
    · right; simp [turnTickS, harm, htl]
    · left; simp [turnTickS, harm, htl]

theorem turnTickS_inv (E : Engine) (g : ChessGame)
    (h : ChessTimerInv g) : ChessTimerInv (turnTickS E g).1 := by
  rcases turnTickS_shape E g with hs | ⟨c, harm, hs | hs⟩
  · rw [hs]; exact h
  · rw [hs]
    cases c <;> exact ChessTimerInv_of_fields g _ rfl rfl rfl rfl h
  · rw [hs]
    have hp : g.phase = ChessPhase.playing := (h.2 (by simp [harm])).1
    apply endGameS_inv
    have hboff : g.biddingArmed = false :=
      inv_bidding_off g h (by simp [hp])
    cases c <;> exact hboff

/-- The possible results of the `move` handler: rejection with state
unchanged, illegal-move timer restore, or an applied move (with or
without a terminal transition). -/
theorem moveHandler_shape (E : Engine) (g : ChessGame) (c : Color)
    (m : Nat) :
    (moveHandler E g c m).1 = g ∨
    ((moveHandler E g c m).1 = startTimerS E (stopTimerS g) ∧
      g.registered = true ∧ g.phase = ChessPhase.playing) ∨
    (∃ pos2, E.applyMove g.pos m = some pos2 ∧
      g.registered = true ∧ g.phase = ChessPhase.playing ∧
      ((moveHandler E g c m).1 =
        { startTimerS E { stopTimerS g with pos := pos2 } with
          drawOfferFrom := none } ∨
       (moveHandler E g c m).1 =
        (endGameS (startTimerS E { stopTimerS g with pos := pos2 })
          (if E.isCheckmate pos2 = true then some c else none)
          (if E.isCheckmate pos2 = true then "checkmate" else "draw")).1)) := by
  by_cases hr : g.registered = true
  · by_cases hp : g.phase = ChessPhase.playing
    · by_cases ht : E.turnOf g.pos = c
      · cases hmv : E.applyMove g.pos m with
        | none =>
          right; left
          refine ⟨?_, hr, hp⟩
          simp [moveHandler, hr, hp, ht, stopTimerS, hmv]
        | some pos2 =>
          right; right
          refine ⟨pos2, rfl, hr, hp, ?_⟩
          by_cases hov : E.isGameOver pos2 = true
          · right; simp [moveHandler, hr, hp, ht, stopTimerS, hmv, hov]
          · left; simp [moveHandler, hr, hp, ht, stopTimerS, hmv, hov]
      · left; simp [moveHandler, hr, hp, ht]
    · left; simp [moveHandler, hr, hp]
  · left; simp [moveHandler, hr]

theorem moveHandler_inv (E : Engine) (g : ChessGame) (c : Color) (m : Nat)
    (h : ChessTimerInv g) : ChessTimerInv (moveHandler E g c m).1 := by
  rcases moveHandler_shape E g c m with hs | ⟨hs, hr, hp⟩ |
    ⟨pos2, _, hr, hp, hs | hs⟩
  · rw [hs]; exact h
  · rw [hs]
    have hboff := inv_bidding_off g h (by simp [hp])
    constructor
    · intro hbid
      exact absurd hbid (by simp [startTimerS, stopTimerS, hboff])
    · intro _
      exact ⟨hp, hr⟩
  · rw [hs]
    have hboff := inv_bidding_off g h (by simp [hp])
    constructor
    · intro hbid
      exact absurd hbid (by simp [startTimerS, stopTimerS, hboff])
    · intro _
      exact ⟨hp, hr⟩
  · rw [hs]
    apply endGameS_inv
    have hboff := inv_bidding_off g h (by simp [hp])
    exact hboff

theorem resignHandler_shape (g : ChessGame) (c : Color) :
    (resignHandler g c).1 = g ∨
    ((resignHandler g c).1 = (endGameS g (some c.other) "resignation").1 ∧
      g.phase = ChessPhase.playing) := by
  by_cases hr : g.registered = true
  · by_cases hp : g.phase = ChessPhase.playing
    · right; exact ⟨by simp [resignHandler, hr, hp], hp⟩
    · left; simp [resignHandler, hr, hp]
  · left; simp [resignHandler, hr]

theorem resignHandler_inv (g : ChessGame) (c : Color)
    (h : ChessTimerInv g) : ChessTimerInv (resignHandler g c).1 := by
  rcases resignHandler_shape g c with hs | ⟨hs, hp⟩
  · rw [hs]; exact h
  · rw [hs]
    exact endGameS_inv _ _ _ (inv_bidding_off g h (by simp [hp]))

theorem offerDrawHandler_inv (g : ChessGame) (c : Color)
    (h : ChessTimerInv g) : ChessTimerInv (offerDrawHandler g c).1 := by
  unfold offerDrawHandler
  split_ifs <;> exact h

theorem acceptDrawHandler_shape (g : ChessGame) (c : Color) :
    (acceptDrawHandler g c).1 = g ∨
    ((acceptDrawHandler g c).1 = (endGameS g none "draw_agreed").1 ∧
      g.phase = ChessPhase.playing) := by
  by_cases hr : g.registered = true
  · by_cases hps : g.phase ≠ ChessPhase.playing ∨ g.drawOfferFrom = none
    · left; simp [acceptDrawHandler, hr, hps]
    · have hp : g.phase = ChessPhase.playing := by
        rcases not_or.mp hps with ⟨h1, _⟩
        simpa using h1
      have hno : ¬g.drawOfferFrom = none := (not_or.mp hps).2
      by_cases hself : g.drawOfferFrom = some c
      · left; simp [acceptDrawHandler, hr, hp, hno, hself]
      · right
        exact ⟨by simp [acceptDrawHandler, hr, hp, hno, hself], hp⟩
  · left; simp [acceptDrawHandler, hr]

theorem acceptDrawHandler_inv (g : ChessGame) (c : Color)
    (h : ChessTimerInv g) : ChessTimerInv (acceptDrawHandler g c).1 := by
  rcases acceptDrawHandler_shape g c with hs | ⟨hs, hp⟩
  · rw [hs]; exact h
  · rw [hs]
    exact endGameS_inv _ _ _ (inv_bidding_off g h (by simp [hp]))

theorem declineDrawHandler_inv (g : ChessGame) (c : Color)
    (h : ChessTimerInv g) : ChessTimerInv (declineDrawHandler g c).1 := by
  unfold declineDrawHandler
  split_ifs <;> exact h

theorem setConnected_fields_inv (g : ChessGame) (c : Color) (v : Bool)
    (h : ChessTimerInv g) : ChessTimerInv (g.setConnected c v) := by
  cases c <;> exact ChessTimerInv_of_fields g _ rfl rfl rfl rfl h

theorem disconnectCore_shape (g : ChessGame) (c : Color) :
    (disconnectCore g c).1 = g.setConnected c false ∨
    ((disconnectCore g c).1 =
      { stopBiddingS (g.setConnected c false) with registered := false } ∧
      (g.setConnected c false).phase = ChessPhase.bidding) ∨
    ((disconnectCore g c).1 =
      (endGameS (g.setConnected c false) (some c.other)
        "opponent disconnected").1 ∧
      (g.setConnected c false).phase ≠ ChessPhase.bidding) := by
  by_cases hr : (g.setConnected c false).registered = true
  · by_cases hp : (g.setConnected c false).phase = ChessPhase.bidding
    · right; left
      refine ⟨?_, hp⟩
      by_cases hc : ((stopBiddingS (g.setConnected c false)).playerOf
          c.other).connected = true
      · simp [disconnectCore, hr, hp, hc]
      · simp [disconnectCore, hr, hp, hc]
    · right; right
      exact ⟨by simp [disconnectCore, hr, hp], hp⟩
  · left; simp [disconnectCore, hr]

theorem disconnectCore_inv (g : ChessGame) (c : Color)
    (h : ChessTimerInv g) : ChessTimerInv (disconnectCore g c).1 := by
  have h0 := setConnected_fields_inv g c false h
  rcases disconnectCore_shape g c with hs | ⟨hs, hp⟩ | ⟨hs, hp⟩
  · rw [hs]; exact h0
  · rw [hs]
    constructor
    · intro hbid
      exact absurd hbid (by simp [stopBiddingS])
    · intro ha
      have hpp := (h0.2 ha).1
      rw [hp] at hpp
      exact ChessPhase.noConfusion hpp
  · rw [hs]
    exact endGameS_inv _ _ _ (inv_bidding_off _ h0 hp)

theorem chessStep_inv (E : Engine) (g : ChessGame) (e : ChessEvent)
    (h : ChessTimerInv g) : ChessTimerInv (chessStep E g e).1 := by
  cases e with
  | bid c t => exact bidHandler_inv E g c t h
  | biddingTick => exact biddingTickS_inv E g h
  | turnTick => exact turnTickS_inv E g h
  | move c m => exact moveHandler_inv E g c m h
  | resign c => exact resignHandler_inv g c h
  | offerDraw c => exact offerDrawHandler_inv g c h
  | acceptDraw c => exact acceptDrawHandler_inv g c h
  | declineDraw c => exact declineDrawHandler_inv g c h
  | disconnect c => exact disconnectCore_inv g c h

theorem runChess_inv (E : Engine) (g : ChessGame) (es : List ChessEvent)
    (h : ChessTimerInv g) : ChessTimerInv (runChess E g es) := by
  induction es generalizing g with
  | nil => exact h
  | cons e es ih => exact ih _ (chessStep_inv E g e h)

theorem initialGame_inv (wId bId : String) (startPos : Nat) :
    ChessTimerInv (initialGame wId bId startPos) := by
  constructor
  · intro _
    exact ⟨rfl, rfl⟩
  · intro ha
    exact absurd ha (by simp [initialGame])

/-- Claim C8: in every match session reachable from pairing by any
sequence of bid, timer-firing, move, resign, draw and disconnect events,
at most one of the turn timer and the bidding timer is armed, and a
session that has been removed from the registry has no armed timer —
i.e. every terminal transition cancelled all outstanding timers before
deregistering (proved by induction with `ChessTimerInv`: each armed
timer pins the phase and registration, and the phases exclude each
other). -/
theorem timer_exclusion_and_cleanup (E : Engine) (wId bId : String)
    (startPos : Nat) (es : List ChessEvent) :
    ¬((runChess E (initialGame wId bId startPos) es).biddingArmed = true ∧
      (runChess E (initialGame wId bId startPos) es).armedFor.isSome
        = true) ∧
    ((runChess E (initialGame wId bId startPos) es).registered = false →
      (runChess E (initialGame wId bId startPos) es).biddingArmed = false ∧
      (runChess E (initialGame wId bId startPos) es).armedFor = none) := by
  have h := runChess_inv E (initialGame wId bId startPos) es
    (initialGame_inv wId bId startPos)
  constructor
  · rintro ⟨hb, ha⟩
    have h1 := (h.1 hb).1
    have h2 := (h.2 ha).1
    rw [h1] at h2
    exact ChessPhase.noConfusion h2
  · intro hreg
    constructor
    · by_cases hb : (runChess E (initialGame wId bId startPos) es).biddingArmed
          = true
      · rw [(h.1 hb).2] at hreg
        exact Bool.noConfusion hreg
      · simpa using hb
    · cases harm : (runChess E (initialGame wId bId startPos) es).armedFor with
      | none => rfl
      | some c =>
        rw [(h.2 (by simp [harm])).2] at hreg
        exact Bool.noConfusion hreg

/-- Witness for `timer_exclusion_and_cleanup`: a complete game — both
players bid, then white resigns — ends deregistered with no armed timer
(the second conjunct's hypothesis holds and its conclusion follows). -/
theorem timer_exclusion_and_cleanup_witness :
    (¬((runChess sampleEngine (initialGame "w" "b" 0)
        [ChessEvent.bid Color.white 60, ChessEvent.bid Color.black 60,
         ChessEvent.resign Color.white]).biddingArmed = true ∧
      (runChess sampleEngine (initialGame "w" "b" 0)
        [ChessEvent.bid Color.white 60, ChessEvent.bid Color.black 60,
         ChessEvent.resign Color.white]).armedFor.isSome = true) ∧
    ((runChess sampleEngine (initialGame "w" "b" 0)
        [ChessEvent.bid Color.white 60, ChessEvent.bid Color.black 60,
         ChessEvent.resign Color.white]).registered = false →
      (runChess sampleEngine (initialGame "w" "b" 0)
        [ChessEvent.bid Color.white 60, ChessEvent.bid Color.black 60,
         ChessEvent.resign Color.white]).biddingArmed = false ∧
      (runChess sampleEngine (initialGame "w" "b" 0)
        [ChessEvent.bid Color.white 60, ChessEvent.bid Color.black 60,
         ChessEvent.resign Color.white]).armedFor = none)) ∧
    (runChess sampleEngine (initialGame "w" "b" 0)
      [ChessEvent.bid Color.white 60, ChessEvent.bid Color.black 60,
       ChessEvent.resign Color.white]).registered = false :=
  ⟨timer_exclusion_and_cleanup sampleEngine "w" "b" 0
    [ChessEvent.bid Color.white 60, ChessEvent.bid Color.black 60,
     ChessEvent.resign Color.white],
   by decide⟩

/-- The two possible results of `join_lobby`: rejection (lobby
unchanged) or appending a freshly constructed non-host player, which
happens only when the identity was not yet present. -/
theorem joinLobby_shape (l : QLobby) (sid : Nat) (uid uname : String)
    (ig : Bool) :
    (joinLobby l sid uid uname ig).1 = l ∨
    ((joinLobby l sid uid uname ig).1 =
      { l with players := l.players ++ [createPlayer sid uid uname false ig] }
      ∧ l.players.any (fun p => p.userId = uid) = false) := by
  simp only [joinLobby]
  split_ifs with h1 h2 h3
  all_goals
    first
      | (left; rfl)
      | (right; exact ⟨rfl, by simpa using h3⟩)

theorem joinLobby_inv (l : QLobby) (sid : Nat) (uid uname : String)
    (ig : Bool) (h : LobbyInv l) :
    LobbyInv (joinLobby l sid uid uname ig).1 := by
  obtain ⟨hm, hh, hn⟩ := h
  rcases joinLobby_shape l sid uid uname ig with hs | ⟨hs, hdup⟩
  · rw [hs]; exact ⟨hm, hh, hn⟩
  · rw [hs]
    refine ⟨List.mem_append_left _ hm, hh, ?_⟩
    show ((l.players ++ [createPlayer sid uid uname false ig]).map
      (fun p => p.userId)).Nodup
    rw [List.map_append, List.nodup_append]
    refine ⟨hn, by simp, ?_⟩
    intro x hx hx2
    simp only [createPlayer, List.map_cons, List.map_nil,
      List.mem_singleton] at hx2
    rcases List.mem_map.mp hx with ⟨p, hp, hpu⟩
    have hdup2 : ∀ q ∈ l.players, q.userId ≠ uid := by simpa using hdup
    exact hdup2 p hp (hpu.trans hx2)

theorem leaveLobby_inv (l : QLobby) (sid : Nat) (l' : QLobby)
    (h : LobbyInv l) (he : leaveLobby l sid = some l') : LobbyInv l' := by
  obtain ⟨hm, hh, hn⟩ := h
  have hnf : ((l.players.filter (fun p => p.sid ≠ sid)).map
      (fun p => p.userId)).Nodup :=
    List.Nodup.sublist (List.Sublist.map _ (List.filter_sublist _)) hn
  unfold leaveLobby at he
  split at he
  · exact Option.noConfusion he
  · rename_i hd tl hf
    rw [hf] at hnf
    split_ifs at he with hhost
    · obtain rfl := Option.some.inj he
      refine ⟨List.mem_cons_self _ _, rfl, ?_⟩
      simpa using hnf
    · obtain rfl := Option.some.inj he
      refine ⟨?_, hh, hnf⟩
      show l.host ∈ hd :: tl
      rw [← hf]
      exact List.mem_filter.mpr ⟨hm, by simpa using hhost⟩

theorem kickPlayer_inv (l : QLobby) (r t : String)
    (h : LobbyInv l) : LobbyInv (kickPlayer l r t).1 := by
  obtain ⟨hm, hh, hn⟩ := h
  unfold kickPlayer
  split_ifs with h1
  · exact ⟨hm, hh, hn⟩
  · cases hf : l.players.find? (fun p => p.userId = t) with
    | none => exact ⟨hm, hh, hn⟩
    | some tp =>
      by_cases h2 : tp.isHost = true
      · simp only [h2, if_true]
        exact ⟨hm, hh, hn⟩
      · simp only [h2, if_false]
        have htmem : tp ∈ l.players := List.mem_of_find?_eq_some hf
        have htu : tp.userId = t := by simpa using List.find?_some hf
        have hne : l.host.userId ≠ t := by
          intro heq
          have hht : l.host = tp :=
            List.inj_on_of_nodup_map hn hm htmem (by rw [heq, htu])
          rw [hht] at hh
          exact h2 hh
        refine ⟨List.mem_filter.mpr ⟨hm, by simpa using hne⟩, hh, ?_⟩
        exact List.Nodup.sublist
          (List.Sublist.map _ (List.filter_sublist _)) hn

theorem applyLobbyOp_inv (l : QLobby) (op : LobbyOp) (l' : QLobby)
    (h : LobbyInv l) (he : applyLobbyOp l op = some l') : LobbyInv l' := by
  cases op with
  | join sid uid uname ig =>
    simp only [applyLobbyOp, Option.some.injEq] at he
    rw [← he]
    exact joinLobby_inv l sid uid uname ig h
  | leave sid =>
    simp only [applyLobbyOp] at he
    exact leaveLobby_inv l sid l' h he
  | kick r t =>
    simp only [applyLobbyOp, Option.some.injEq] at he
    rw [← he]
    exact kickPlayer_inv l r t h

theorem runLobbyOps_none (ops : List LobbyOp) :
    ops.foldl (fun acc op => acc.bind (fun l => applyLobbyOp l op)) none
      = none := by
  induction ops with
  | nil => rfl
  | cons op ops ih => simpa using ih

theorem runLobbyOps_inv (ops : List LobbyOp) (l : QLobby) (l' : QLobby)
    (h : LobbyInv l) (he : runLobbyOps l ops = some l') : LobbyInv l' := by
  induction ops generalizing l with
  | nil =>
    simp only [runLobbyOps, List.foldl_nil, Option.some.injEq] at he
    rw [← he]
    exact h
  | cons op ops ih =>
    rw [runLobbyOps, List.foldl_cons] at he
    replace he : List.foldl
        (fun acc op => acc.bind (fun l => applyLobbyOp l op))
        (applyLobbyOp l op) ops = some l' := he
    cases happ : applyLobbyOp l op with
    | none =>
      rw [happ, runLobbyOps_none ops] at he
      exact Option.noConfusion he
    | some l1 =>
      rw [happ] at he
      exact ih l1 (applyLobbyOp_inv l op l1 h happ) he

/-- Claim C6, counterexample: a lobby created with
`hostParticipates = false` keeps the host out of `players`; after alice
joins, the player list is non-empty yet the host is not a member of it,
refuting the claimed invariant over all create/join/leave/kick
sequences. -/
theorem host_not_member_counterexample :
    ((joinLobby (createLobby (createPlayer 0 "host" "host" true false)
        "deck" c1Settings) 1 "alice" "alice" false).1.players ≠ []) ∧
    ((joinLobby (createLobby (createPlayer 0 "host" "host" true false)
        "deck" c1Settings) 1 "alice" "alice" false).1.host ∉
      (joinLobby (createLobby (createPlayer 0 "host" "host" true false)
        "deck" c1Settings) 1 "alice" "alice" false).1.players) := by
  decide

/-- Claim C6, amended: for every quiz lobby created with
`hostParticipates = true` and reachable by any sequence of
join/leave/kick/disconnect operations (a quiz disconnect runs the leave
logic), the host is a member of the (necessarily non-empty) player
list; and when the departing player is the host and players remain, the
host role transfers to the first remaining player in join order, with
its `isHost` flag set.  For lobbies created with
`hostParticipates = false` the host is never placed in `players`, so
the membership invariant fails there (see the counterexample). -/
theorem host_membership_invariant :
    (∀ (sid : Nat) (uid uname deckId : String) (settings : QSettings)
      (ops : List LobbyOp) (l' : QLobby),
      settings.hostParticipates = true →
      runLobbyOps (createLobby (createPlayer sid uid uname true false)
        deckId settings) ops = some l' →
      l'.host ∈ l'.players ∧ l'.players ≠ []) ∧
    (∀ (l : QLobby) (sid : Nat) (hd : QPlayer) (tl : List QPlayer),
      l.host.sid = sid →
      l.players.filter (fun p => p.sid ≠ sid) = hd :: tl →
      leaveLobby l sid =
        some { l with players := { hd with isHost := true } :: tl
                      host := { hd with isHost := true } }) := by
  constructor
  · intro sid uid uname deckId settings ops l' hpart he
    have h0 : LobbyInv (createLobby (createPlayer sid uid uname true false)
        deckId settings) := by
      refine ⟨?_, rfl, ?_⟩
      · show createPlayer sid uid uname true false ∈
          (if settings.hostParticipates then
            [createPlayer sid uid uname true false] else [])
        rw [hpart]
        simp
      · show ((if settings.hostParticipates then
            [createPlayer sid uid uname true false] else []).map
              (fun p => p.userId)).Nodup
        rw [hpart]
        simp
    have hinv := runLobbyOps_inv ops _ l' h0 he
    exact ⟨hinv.1, List.ne_nil_of_mem hinv.1⟩
  · intro l sid hd tl hsid hfil
    unfold leaveLobby
    rw [hfil]
    simp [hsid]

/-- Witness for `host_membership_invariant`: the host creates a
participating lobby, alice joins, the host leaves — alice (first in
join order) becomes host and is a member of the non-empty player list. -/
theorem host_membership_invariant_witness :
    (⟨⟨1, "a", "a", 0, 0, true, false⟩,
      [⟨1, "a", "a", 0, 0, true, false⟩], "d",
      scoringDemoGame.lobby.settings, LobbyStatus.waiting⟩ : QLobby).host ∈
      (⟨⟨1, "a", "a", 0, 0, true, false⟩,
        [⟨1, "a", "a", 0, 0, true, false⟩], "d",
        scoringDemoGame.lobby.settings, LobbyStatus.waiting⟩ : QLobby).players
    ∧ (⟨⟨1, "a", "a", 0, 0, true, false⟩,
        [⟨1, "a", "a", 0, 0, true, false⟩], "d",
        scoringDemoGame.lobby.settings, LobbyStatus.waiting⟩ : QLobby).players
        ≠ [] :=
  host_membership_invariant.1 0 "h" "h" "d" scoringDemoGame.lobby.settings
    [LobbyOp.join 1 "a" "a" false, LobbyOp.leave 0]
    (⟨⟨1, "a", "a", 0, 0, true, false⟩,
      [⟨1, "a", "a", 0, 0, true, false⟩], "d",
      scoringDemoGame.lobby.settings, LobbyStatus.waiting⟩ : QLobby)
    rfl (by decide)
